import Mathlib

/-!
Verification of the settlement and ledger engine of the `pkr_stablecoin`
repository (Django).  The Python source is shallowly embedded: the database is
a `St` record of tables (lists of rows), each service function becomes a state
transformer, `@transaction.atomic` failure is `Except.error` (the caller keeps
the pre-call state, matching a full rollback, since the chain and wallet stubs
live in the same database), and Python `Decimal` values are exact
mantissa/exponent pairs `Dec`.  User ids and external-transaction ids are
modelled as naturals standing in for UUIDs.
-/

/-- Exact decimal number with value `m / 10 ^ e`, mirroring Python `Decimal`
(whose arithmetic is exact on all values reachable in this code base). -/
structure Dec where
  m : ℤ
  e : ℕ
deriving DecidableEq

/-- The rational value of a decimal. -/
def Dec.toRat (d : Dec) : ℚ := Rat.divInt d.m ((10 : ℤ) ^ d.e)

/-- `TOKEN_DECIMALS` from `pkr_stablecoin/settings.py`. -/
def TOKEN_DECIMALS : ℕ := 6

/-- `TEN_POW = 10 ** TOKEN_DECIMALS` from `core/constants.py`. -/
def TEN_POW : ℕ := 10 ^ TOKEN_DECIMALS

/-- `core/constants.py` `pkr_to_units`: `Decimal(amount_pkr) * TEN_POW`
quantized to exponent 0 with `ROUND_DOWN` (truncation toward zero).
`(m / 10^e) * 10^6` truncated toward zero is `(m * 10^6).tdiv (10^e)`. -/
def pkr_to_units (amount_pkr : Dec) : ℤ :=
  Int.tdiv (amount_pkr.m * (TEN_POW : ℤ)) ((10 : ℤ) ^ amount_pkr.e)

/-- `Decimal.quantize(Decimal("0.01"), rounding=ROUND_DOWN)`: truncate the
value toward zero at two decimal places. -/
def Dec.quantize2Down (d : Dec) : Dec :=
  ⟨Int.tdiv (d.m * 100) ((10 : ℤ) ^ d.e), 2⟩

/-- `core/constants.py` `units_to_pkr`: `Decimal(u) / Decimal(TEN_POW)`
(exact: division by a power of ten) then `quantize("0.01", ROUND_DOWN)`. -/
def units_to_pkr (amount_units : ℤ) : Dec :=
  Dec.quantize2Down ⟨amount_units, TOKEN_DECIMALS⟩

theorem Dec.toRat_def (d : Dec) : d.toRat = (d.m : ℚ) / ((10 : ℚ) ^ d.e) := by
  rw [Dec.toRat, Rat.divInt_eq_div]
  push_cast
  ring

theorem tdiv_pow_eq_floor (a : ℤ) (n : ℕ) (ha : 0 ≤ a) :
    Int.tdiv a ((10 : ℤ) ^ n) = ⌊(a : ℚ) / ((10 : ℚ) ^ n)⌋ := by
  have h10 : ((10 : ℤ) ^ n) = ((10 ^ n : ℕ) : ℤ) := by push_cast; ring
  have h10q : ((10 : ℚ) ^ n) = ((10 ^ n : ℕ) : ℚ) := by push_cast; ring
  rw [h10, Int.tdiv_eq_ediv ha (by positivity), h10q,
    ← Rat.floor_intCast_div_natCast a (10 ^ n)]

theorem pkr_to_units_nonneg_eq_floor (d : Dec) (hd : 0 ≤ d.toRat) :
    pkr_to_units d = ⌊d.toRat * ((TEN_POW : ℕ) : ℚ)⌋ := by
  have hm : 0 ≤ d.m := by
    by_contra hneg
    push_neg at hneg
    have : d.toRat < 0 := by
      rw [Dec.toRat_def]
      apply div_neg_of_neg_of_pos
      · exact_mod_cast hneg
      · positivity
    linarith
  rw [pkr_to_units, tdiv_pow_eq_floor _ _ (by positivity), Dec.toRat_def]
  congr 1
  push_cast
  ring

theorem pkr_to_units_nonpos_eq_ceil (d : Dec) (hd : d.toRat ≤ 0) :
    pkr_to_units d = ⌈d.toRat * ((TEN_POW : ℕ) : ℚ)⌉ := by
  have hm : d.m ≤ 0 := by
    by_contra hpos
    push_neg at hpos
    have : 0 < d.toRat := by
      rw [Dec.toRat_def]
      apply div_pos
      · exact_mod_cast hpos
      · positivity
    linarith
  have hneg : Int.tdiv (d.m * (TEN_POW : ℤ)) ((10 : ℤ) ^ d.e)
      = -Int.tdiv (-(d.m * (TEN_POW : ℤ))) ((10 : ℤ) ^ d.e) := by
    rw [Int.neg_tdiv, neg_neg]
  have hTnn : (0 : ℤ) ≤ (TEN_POW : ℤ) := by positivity
  rw [pkr_to_units, hneg, tdiv_pow_eq_floor _ _ (by nlinarith)]
  rw [show ((-(d.m * (TEN_POW : ℤ)) : ℤ) : ℚ) = -((d.m : ℚ) * ((TEN_POW : ℕ) : ℚ)) by
    push_cast; ring]
  rw [show -((d.m : ℚ) * ((TEN_POW : ℕ) : ℚ)) / ((10 : ℚ) ^ d.e)
      = -(d.toRat * ((TEN_POW : ℕ) : ℚ)) by rw [Dec.toRat_def]; ring]
  rw [Int.floor_neg, neg_neg]

theorem units_to_pkr_le (u : ℤ) (hu : 0 ≤ u) :
    (units_to_pkr u).toRat ≤ (u : ℚ) / ((TEN_POW : ℕ) : ℚ) := by
  have hT : ((TEN_POW : ℕ) : ℚ) = 1000000 := by norm_num [TEN_POW, TOKEN_DECIMALS]
  rw [units_to_pkr, Dec.quantize2Down, Dec.toRat_def, hT]
  simp only [TOKEN_DECIMALS]
  rw [tdiv_pow_eq_floor _ _ (by positivity)]
  have h1 : ((⌊((u * 100 : ℤ) : ℚ) / ((10 : ℚ) ^ (6 : ℕ))⌋ : ℤ) : ℚ)
      ≤ ((u * 100 : ℤ) : ℚ) / ((10 : ℚ) ^ (6 : ℕ)) := Int.floor_le _
  have h6 : ((10 : ℚ) ^ (6 : ℕ)) = 1000000 := by norm_num
  have h2 : ((10 : ℚ) ^ (2 : ℕ)) = 100 := by norm_num
  rw [h6] at h1 ⊢
  rw [h2]
  have h3 : ((u * 100 : ℤ) : ℚ) / 1000000 = (u : ℚ) / 1000000 * 100 := by
    push_cast
    ring
  rw [h3] at h1 ⊢
  linarith

/-! ## String helpers

The Python code uses `str.lower`, `str.strip`, `str.startswith`, `int(...)`
and `"@" in ...` on short identifier strings.  They are modelled here by
structurally recursive functions over the character list of a `String`
(Lean's built-in `String.toLower` etc. do not reduce inside the kernel). -/

/-- ASCII lower-casing of one character. -/
def lowerChar (c : Char) : Char :=
  if 'A' ≤ c ∧ c ≤ 'Z' then Char.ofNat (c.toNat + 32) else c

/-- Python `str.lower` (ASCII range, which covers every identifier here). -/
def strLower (s : String) : String := ⟨s.data.map lowerChar⟩

/-- Blank detector for `str.strip`. -/
def isSpaceChar (c : Char) : Bool := c = ' '

/-- Python `str.strip`. -/
def strStrip (s : String) : String :=
  ⟨((s.data.dropWhile isSpaceChar).reverse.dropWhile isSpaceChar).reverse⟩

/-- Python `str.startswith`. -/
def strStartsWith (s p : String) : Bool := p.data.isPrefixOf s.data

/-- Python `"@" in s`. -/
def strHasAt (s : String) : Bool := s.data.any (fun c => c = '@')

/-- Value of a decimal digit. -/
def digitVal (c : Char) : Option ℕ :=
  if '0' ≤ c ∧ c ≤ '9' then some (c.toNat - '0'.toNat) else none

/-- Accumulating decimal parser. -/
def parseNatAux : List Char → ℕ → Option ℕ
  | [], acc => some acc
  | c :: cs, acc =>
    match digitVal c with
    | some d => parseNatAux cs (acc * 10 + d)
    | none => none

/-- Python `int(s)` for a non-negative literal (`None` = `ValueError`). -/
def strToNatOpt (s : String) : Option ℕ :=
  if s.data = [] then none else parseNatAux s.data 0

/-- Python `int(s)` for a possibly signed literal (`None` = `ValueError`). -/
def strToIntOpt (s : String) : Option ℤ :=
  match s.data with
  | '-' :: rest => if rest = [] then none else (parseNatAux rest 0).map (fun n => -(n : ℤ))
  | l => if l = [] then none else (parseNatAux l 0).map (fun n => (n : ℤ))

/-! ## Data model (`core/models.py`)

UUID primary keys are modelled as naturals.  Only the fields the claims
depend on are carried; timestamps are dropped except for the boolean
`consumed` flag of `OnchainEvent` (`consumed_at` set or not). -/

/-- `DEMO_USER_EMAIL` from settings. -/
def DEMO_USER_EMAIL : String := "hassan@bitcoinl2labs.com"

/-- `ExternalTransactionStatus`. -/
inductive ETStatus
  | RECEIVED
  | MINTED
  | IGNORED
deriving DecidableEq

/-- Ledger side. -/
inductive Side
  | debit
  | credit
deriving DecidableEq

/-- Ledger account: the constants `ISSUER_TOKEN` and `USER_TOKEN`. -/
inductive Account
  | issuer_token
  | user_token
deriving DecidableEq

/-- `ref_type` / `job_type`: mint or burn. -/
inductive RefType
  | mint
  | burn
deriving DecidableEq

/-- `PayoutJobStatus`. -/
inductive PayoutJobStatus
  | PENDING
  | SUCCESS
  | FAILED_RETRYABLE
  | FAILED_FINAL
deriving DecidableEq

/-- `core.models.ExternalTransaction` (fields used by the services). -/
structure ExternalTransaction where
  id : ℕ
  provider_tx_id : String
  direction : String
  amount_pkr : Dec
  status : ETStatus
deriving DecidableEq

/-- `core.models.ChainJob`. -/
structure ChainJob where
  id : ℕ
  user : ℕ
  job_type : RefType
  amount_units : ℤ
  ref_external_tx : Option ℕ
  tx_hash : String
  status : String
  idempotency_key : Option String
deriving DecidableEq

/-- `core.models.LedgerEntry`. -/
structure LedgerEntry where
  user : Option ℕ
  side : Side
  account : Account
  amount_units : ℤ
  ref_type : RefType
  ref_id : ℕ
deriving DecidableEq

/-- One call made to the chain adapter (the observable external side effect). -/
structure ChainCall where
  kind : RefType
  user_id : ℕ
  amount_units : ℤ
deriving DecidableEq

/-- One transaction recorded by the wallet stub (`wallet_stub.models.WalletStubTx`). -/
structure WalletTx where
  account : String
  direction : String
  amount_pkr : Dec
  memo : String
  provider_tx_id : String
deriving DecidableEq

/-- `core.models.OnchainEvent`; `consumed` models `consumed_at` being set. -/
structure OnchainEvent where
  txid : String
  event_index : ℤ
  event_type : String
  user : ℕ
  amount_units : ℤ
  asset_identifier : String
  consumed : Bool
deriving DecidableEq

/-- `core.models.PayoutJob`, keyed one-to-one by its `OnchainEvent`. -/
structure PayoutJob where
  event_txid : String
  event_index : ℤ
  user : ℕ
  amount_pkr : Dec
  payout_ref : String
  status : PayoutJobStatus
  attempts : ℕ
  last_error : String
deriving DecidableEq

/-- The database: one field per table (plus fresh-id counters and the log of
adapter calls).  `users` maps user id to email. -/
structure St where
  users : List (ℕ × String)
  walletAccounts : List (ℕ × String)
  extTxs : List ExternalTransaction
  nextEtId : ℕ
  jobs : List ChainJob
  nextJobId : ℕ
  tokenBalances : List (ℕ × ℤ)
  ledger : List LedgerEntry
  chainCalls : List ChainCall
  chainStubBalances : List (ℕ × ℤ)
  walletStubBalances : List (String × Dec)
  walletStubTxs : List WalletTx
  onchainEvents : List OnchainEvent
  payoutJobs : List PayoutJob
deriving DecidableEq

/-- The empty database. -/
def St.empty : St :=
  ⟨[], [], [], 0, [], 0, [], [], [], [], [], [], [], []⟩

/-- Errors that abort the enclosing `@transaction.atomic` block; the caller
then observes the pre-call state (full rollback: the chain and wallet stubs
are tables of the same database). -/
inductive Err
  | valueError (msg : String)
  | validationError (msg : String)
  | doesNotExist
  | integrityError
deriving DecidableEq

/-! ## Table access helpers -/

/-- Look up an assoc table by key (Django `objects.get` / `filter(...).first()`). -/
def lookupA {β : Type} (l : List (ℕ × β)) (k : ℕ) : Option β :=
  (l.find? (fun p => p.1 = k)).map (fun p => p.2)

/-- Look up a string-keyed assoc table. -/
def lookupS {β : Type} (l : List (String × β)) (k : String) : Option β :=
  (l.find? (fun p => p.1 = k)).map (fun p => p.2)

/-- Upsert into an assoc table (the row is unique per key in the database). -/
def upsertA {β : Type} (l : List (ℕ × β)) (k : ℕ) (v : β) : List (ℕ × β) :=
  (k, v) :: l.filter (fun p => p.1 ≠ k)

/-- Upsert into a string-keyed assoc table. -/
def upsertS {β : Type} (l : List (String × β)) (k : String) (v : β) : List (String × β) :=
  (k, v) :: l.filter (fun p => p.1 ≠ k)

/-- `ExternalTransaction.objects.get(id=...)`. -/
def findEt (s : St) (etId : ℕ) : Option ExternalTransaction :=
  s.extTxs.find? (fun e => e.id = etId)

/-- `ExternalTransaction.objects.filter(provider_tx_id=...)`. -/
def findEtByProviderTx (s : St) (ptx : String) : Option ExternalTransaction :=
  s.extTxs.find? (fun e => e.provider_tx_id = ptx)

/-- Flip the status of an external transaction (`et.save(update_fields=["status"])`). -/
def setEtStatus (s : St) (etId : ℕ) (st : ETStatus) : St :=
  { s with extTxs := s.extTxs.map (fun e => if e.id = etId then { e with status := st } else e) }

/-- `ChainJob.objects.filter(idempotency_key=key).first()` / `.get(...)`. -/
def findJobByKey (s : St) (k : String) : Option ChainJob :=
  s.jobs.find? (fun j => j.idempotency_key = some k)

/-- `User.objects.get(email=...)`. -/
def lookupUserByEmail (s : St) (email : String) : Option ℕ :=
  (s.users.find? (fun p => p.2 = email)).map (fun p => p.1)

/-- `User.objects.filter(id=...)` existence. -/
def userExists (s : St) (uid : ℕ) : Bool :=
  (lookupA s.users uid).isSome

/-- `OnchainEvent.objects.filter(txid=..., event_index=...)`. -/
def findOnchainEvent (s : St) (txid : String) (idx : ℤ) : Option OnchainEvent :=
  s.onchainEvents.find? (fun e => e.txid = txid ∧ e.event_index = idx)

/-- Set `consumed_at` on an on-chain event. -/
def markEventConsumed (s : St) (txid : String) (idx : ℤ) : St :=
  let evs := s.onchainEvents.map
    (fun e => if e.txid = txid ∧ e.event_index = idx then { e with consumed := true } else e)
  { s with onchainEvents := evs }

/-- `PayoutJob.objects.get_or_create(onchain_event=...)` lookup half. -/
def findPayoutJob (s : St) (txid : String) (idx : ℤ) : Option PayoutJob :=
  s.payoutJobs.find? (fun j => j.event_txid = txid ∧ j.event_index = idx)

/-- Persist an updated payout job row (`job.save(...)`). -/
def setPayoutJob (s : St) (j : PayoutJob) : St :=
  let pjs := s.payoutJobs.map
    (fun x => if x.event_txid = j.event_txid ∧ x.event_index = j.event_index then j else x)
  { s with payoutJobs := pjs }

/-! ## Adapters (`core/adapters/*.py`)

The chain stub confirms every call and mutates `ChainStubBalance`; the wallet
stub appends to an append-only transaction log and updates the balance.  In
addition the model records every adapter call in `chainCalls`, which is how
"the external call was performed" is observed by the theorems. -/

/-- `ChainAdapter.mint`: bump the stub balance, return `{tx_hash, status}`. -/
def ChainAdapter.mint (s : St) (user_id : ℕ) (amount_units : ℤ) :
    String × String × St :=
  let bal := (lookupA s.chainStubBalances user_id).getD 0
  ("0xMINT", "confirmed",
    { s with
      chainStubBalances := upsertA s.chainStubBalances user_id (bal + amount_units),
      chainCalls := s.chainCalls ++ [⟨RefType.mint, user_id, amount_units⟩] })

/-- `ChainAdapter.burn`: decrement the stub balance, return `{tx_hash, status}`. -/
def ChainAdapter.burn (s : St) (user_id : ℕ) (amount_units : ℤ) :
    String × String × St :=
  let bal := (lookupA s.chainStubBalances user_id).getD 0
  ("0xBURN", "confirmed",
    { s with
      chainStubBalances := upsertA s.chainStubBalances user_id (bal - amount_units),
      chainCalls := s.chainCalls ++ [⟨RefType.burn, user_id, amount_units⟩] })

/-- `WalletAdapter.ensure_account`. -/
def WalletAdapter.ensure_account (s : St) (account_id : String) : St :=
  match lookupS s.walletStubBalances account_id with
  | some _ => s
  | none => { s with walletStubBalances := upsertS s.walletStubBalances account_id ⟨0, 2⟩ }

/-- `WalletAdapter.debit`: append a debit tx and lower the stub balance;
returns the generated `provider_tx_id` (modelled deterministically). -/
def WalletAdapter.debit (s : St) (account_id : String) (amount_pkr : Dec) (memo : String) :
    String × St :=
  let s0 := WalletAdapter.ensure_account s account_id
  let ref := "TX-" ++ (Nat.toDigits 10 s0.walletStubTxs.length).asString
  let bal := (lookupS s0.walletStubBalances account_id).getD ⟨0, 2⟩
  let newBal : Dec := ⟨bal.m * (10 : ℤ) ^ amount_pkr.e - amount_pkr.m * (10 : ℤ) ^ bal.e,
    bal.e + amount_pkr.e⟩
  (ref,
    { s0 with
      walletStubTxs := s0.walletStubTxs ++
        [⟨account_id, "debit", amount_pkr, memo, ref⟩],
      walletStubBalances := upsertS s0.walletStubBalances account_id newBal })

/-! ## Services (`core/services.py`)

`seed_demo_user`, `wallet_credit` and `ingest_since` are not involved in any
claim and are omitted.  The `try: create ... except IntegrityError: get`
pattern is modelled by checking the uniqueness constraint before creating,
which is sequentially equivalent. -/

/-- Python truthiness of the optional idempotency key (`if idempotency_key:`). -/
def keyTruthy : Option String → Option String
  | some k => if k = "" then none else some k
  | none => none

/-- `core.services.perform_mint_for_external_tx` (lines 26-81). -/
def perform_mint_for_external_tx (s : St) (etId : ℕ) (user : ℕ)
    (idempotency_key : String) : Except Err (String × St) :=
  match findEt s etId with
  | none => Except.error Err.doesNotExist
  | some external_tx =>
    if external_tx.status = ETStatus.MINTED then Except.ok ("already-minted", s)
    else
      let amount_units := pkr_to_units external_tx.amount_pkr
      if amount_units ≤ 0 then Except.error (Err.valueError "Amount must be > 0")
      else
        let r := ChainAdapter.mint s user amount_units
        let tx_hash := r.1
        let status := r.2.1
        let s1 := r.2.2
        let jp : ChainJob × St :=
          match findJobByKey s1 idempotency_key with
          | some j => (j, s1)
          | none =>
            let j : ChainJob :=
              ⟨s1.nextJobId, user, RefType.mint, amount_units, some etId, tx_hash, status,
                some idempotency_key⟩
            (j, { s1 with jobs := s1.jobs ++ [j], nextJobId := s1.nextJobId + 1 })
        let job := jp.1
        let s2 := jp.2
        let tb := (lookupA s2.tokenBalances user).getD 0
        let s3 := { s2 with tokenBalances := upsertA s2.tokenBalances user (tb + amount_units) }
        let pair : List LedgerEntry :=
          [⟨none, Side.credit, Account.issuer_token, amount_units, RefType.mint, job.id⟩,
           ⟨some user, Side.debit, Account.user_token, amount_units, RefType.mint, job.id⟩]
        let s4 := { s3 with ledger := s3.ledger ++ pair }
        let s5 := setEtStatus s4 etId ETStatus.MINTED
        Except.ok (tx_hash, s5)

/-- `core.services.process_payout_for_onchain_event` (lines 85-130). -/
def process_payout_for_onchain_event (s : St) (txid : String) (idx : ℤ) :
    Except Err (PayoutJob × St) :=
  match findOnchainEvent s txid idx with
  | none => Except.error Err.doesNotExist
  | some event =>
    let amount_pkr := units_to_pkr event.amount_units
    let jp : PayoutJob × St :=
      match findPayoutJob s txid idx with
      | some j => (j, s)
      | none =>
        let j : PayoutJob :=
          ⟨txid, idx, event.user, amount_pkr, "", PayoutJobStatus.PENDING, 0, ""⟩
        (j, { s with payoutJobs := s.payoutJobs ++ [j] })
    let job := jp.1
    let s1 := jp.2
    if job.status = PayoutJobStatus.SUCCESS then Except.ok (job, s1)
    else
      let attempts := job.attempts + 1
      match lookupA s1.walletAccounts event.user with
      | none =>
        let j2 : PayoutJob :=
          { job with
            status := PayoutJobStatus.FAILED_RETRYABLE,
            last_error := "WalletAccount matching query does not exist.",
            attempts := attempts }
        Except.ok (j2, setPayoutJob s1 j2)
      | some provider_acct =>
        let w := WalletAdapter.debit s1 provider_acct amount_pkr ("payout for " ++ txid)
        let payout_ref := w.1
        let s2 := w.2
        let j2 : PayoutJob :=
          { job with
            payout_ref := payout_ref,
            status := PayoutJobStatus.SUCCESS,
            last_error := "",
            attempts := attempts }
        let s3 := setPayoutJob s2 j2
        let s4 := if event.consumed then s3 else markEventConsumed s3 txid idx
        Except.ok (j2, s4)

/-- `core.services.DemoServices.mint_from_provider_tx` (lines 186-229).
Note: there is no positivity check on the converted amount here. -/
def DemoServices.mint_from_provider_tx (s : St) (user : ℕ) (etId : ℕ)
    (idempotency_key : Option String) : Except Err (ChainJob × St) :=
  match (keyTruthy idempotency_key).bind (fun k => findJobByKey s k) with
  | some existing => Except.ok (existing, s)
  | none =>
    match findEt s etId with
    | none => Except.error Err.doesNotExist
    | some et =>
      let amount_units := pkr_to_units et.amount_pkr
      let r := ChainAdapter.mint s user amount_units
      let tx_hash := r.1
      let status := r.2.1
      let s1 := r.2.2
      match idempotency_key.bind (fun k => findJobByKey s1 k) with
      | some winner =>
        match keyTruthy idempotency_key with
        | some _ => Except.ok (winner, s1)
        | none => Except.error Err.integrityError
      | none =>
        let job : ChainJob :=
          ⟨s1.nextJobId, user, RefType.mint, amount_units, some etId, tx_hash, status,
            idempotency_key⟩
        let s2 := { s1 with jobs := s1.jobs ++ [job], nextJobId := s1.nextJobId + 1 }
        match lookupA s2.tokenBalances user with
        | none => Except.error Err.doesNotExist
        | some tb =>
          let s3 := { s2 with tokenBalances := upsertA s2.tokenBalances user (tb + amount_units) }
          let pair : List LedgerEntry :=
            [⟨none, Side.credit, Account.issuer_token, amount_units, RefType.mint, job.id⟩,
             ⟨some user, Side.debit, Account.user_token, amount_units, RefType.mint, job.id⟩]
          let s4 := { s3 with ledger := s3.ledger ++ pair }
          Except.ok (job, s4)

/-- `core.services.DemoServices.redeem` (lines 233-283). -/
def DemoServices.redeem (s : St) (user : ℕ) (amount_units : ℤ) (memo : String)
    (idempotency_key : Option String) : Except Err (ChainJob × St) :=
  match (keyTruthy idempotency_key).bind (fun k => findJobByKey s k) with
  | some existing => Except.ok (existing, s)
  | none =>
    match lookupA s.tokenBalances user with
    | none => Except.error Err.doesNotExist
    | some tb =>
      if tb < amount_units then Except.error (Err.validationError "insufficient_balance")
      else
        let r := ChainAdapter.burn s user amount_units
        let receipt_tx_hash := r.1
        let receipt_status := r.2.1
        let s1 := r.2.2
        match idempotency_key.bind (fun k => findJobByKey s1 k) with
        | some winner =>
          match keyTruthy idempotency_key with
          | some _ => Except.ok (winner, s1)
          | none => Except.error Err.integrityError
        | none =>
          let job : ChainJob :=
            ⟨s1.nextJobId, user, RefType.burn, amount_units, none, receipt_tx_hash,
              receipt_status, idempotency_key⟩
          let s2 := { s1 with jobs := s1.jobs ++ [job], nextJobId := s1.nextJobId + 1 }
          let s3 := { s2 with tokenBalances := upsertA s2.tokenBalances user (tb - amount_units) }
          let pair : List LedgerEntry :=
            [⟨some user, Side.credit, Account.user_token, amount_units, RefType.burn, job.id⟩,
             ⟨none, Side.debit, Account.issuer_token, amount_units, RefType.burn, job.id⟩]
          let s4 := { s3 with ledger := s3.ledger ++ pair }
          match lookupA s4.walletAccounts user with
          | none => Except.error Err.doesNotExist
          | some provider_acct =>
            let amount_pkr := units_to_pkr amount_units
            let w := WalletAdapter.debit s4 provider_acct amount_pkr
              (if memo = "" then "redeem" else memo)
            Except.ok (job, w.2)

/-! ## Operational endpoints (`api/views_ops.py`)

The HTTP shell is modelled from the point where the request body has been
decoded: `views_redeem` takes the parsed integer amount, the bank webhook is
modelled after HMAC/IP verification succeeded (`bank_webhook_verified`), and
the chainhook webhook takes the decoded JSON events of the flat ("simple")
payload shape.  An uncaught Python exception surfaces as `serverError`. -/

/-- Responses of the redeem endpoint. -/
inductive RedeemResp
  | created (job_id : ℕ) (tx_hash : String) (amount_units : ℤ)
  | requiredErr
  | errorJson (msg : String)
  | serverError
deriving DecidableEq

/-- `api.views_ops.redeem` (lines 64-90), after JSON decoding: `if not
amount_units` rejects the falsy `0`, `ValidationError` becomes a 400 with the
error message, any other exception is unhandled. -/
def views_redeem (s : St) (amount_units : ℤ) (memo : String)
    (idempotency_key : Option String) : RedeemResp × St :=
  if amount_units = 0 then (RedeemResp.requiredErr, s)
  else
    match lookupUserByEmail s DEMO_USER_EMAIL with
    | none => (RedeemResp.serverError, s)
    | some user =>
      match DemoServices.redeem s user amount_units memo idempotency_key with
      | Except.ok (job, s1) => (RedeemResp.created job.id job.tx_hash job.amount_units, s1)
      | Except.error (Err.validationError msg) => (RedeemResp.errorJson msg, s)
      | Except.error _ => (RedeemResp.serverError, s)

/-- Decoded body of a bank webhook delivery (after `json.loads`). -/
structure BankPayload where
  provider_tx_id : String
  direction : String
  status : String
  amount_pkr : Dec
  memo : String
  meta_user_uuid : Option ℕ
  meta_user_email : Option String
deriving DecidableEq

/-- `api.views_ops._resolve_user_from_bank_payload`: metadata uuid, then
metadata email, then a `user:<id>` memo, then the demo user; `none` models
`User.DoesNotExist` escaping to the caller. -/
def resolve_user_from_bank_payload (s : St) (p : BankPayload) : Option ℕ :=
  match p.meta_user_uuid with
  | some uid => if userExists s uid then some uid else none
  | none =>
    match p.meta_user_email with
    | some em => lookupUserByEmail s (strLower (strStrip em))
    | none =>
      let memo := strStrip p.memo
      if strStartsWith (strLower memo) "user:" then
        match strToNatOpt (strStrip (String.mk (memo.data.drop 5))) with
        | some uid => if userExists s uid then some uid else none
        | none => none
      else lookupUserByEmail s DEMO_USER_EMAIL

/-- Responses of the bank webhook (the verified-delivery part). -/
inductive BankResp
  | ignored
  | idempotent (status : ETStatus)
  | minted (tx_hash : String)
  | unknownUser
  | processingError
deriving DecidableEq

/-- `api.views_ops.bank_webhook` (lines 206-307) from the point where method,
IP allowlist, JSON decoding and the HMAC signature have all been accepted.
The wallet-account `get_or_create` commits before the atomic block; an
exception inside the atomic block rolls back to the state right after it. -/
def bank_webhook_verified (s : St) (p : BankPayload) : BankResp × St :=
  let direction := strLower p.direction
  let status := strLower p.status
  match resolve_user_from_bank_payload s p with
  | none => (BankResp.unknownUser, s)
  | some user =>
    let s0 :=
      match lookupA s.walletAccounts user with
      | some _ => s
      | none => { s with walletAccounts := upsertA s.walletAccounts user "WALLET-001" }
    if direction ≠ "credit" ∨ status ≠ "settled" ∨ p.amount_pkr.m ≤ 0 then
      let s1 :=
        match findEtByProviderTx s0 p.provider_tx_id with
        | some _ => s0
        | none =>
          { s0 with
            extTxs := s0.extTxs ++
              [⟨s0.nextEtId, p.provider_tx_id, direction, p.amount_pkr, ETStatus.IGNORED⟩],
            nextEtId := s0.nextEtId + 1 }
      (BankResp.ignored, s1)
    else
      let ets : ExternalTransaction × St :=
        match findEtByProviderTx s0 p.provider_tx_id with
        | some et => (et, s0)
        | none =>
          let et : ExternalTransaction :=
            ⟨s0.nextEtId, p.provider_tx_id, direction, p.amount_pkr, ETStatus.RECEIVED⟩
          (et, { s0 with extTxs := s0.extTxs ++ [et], nextEtId := s0.nextEtId + 1 })
      let et := ets.1
      let s1 := ets.2
      if et.status = ETStatus.MINTED then (BankResp.idempotent et.status, s1)
      else
        match perform_mint_for_external_tx s1 et.id user ("bank:" ++ p.provider_tx_id) with
        | Except.ok (tx_hash, s2) => (BankResp.minted tx_hash, s2)
        | Except.error _ => (BankResp.processingError, s0)

/-- A JSON scalar as it appears in a chainhook event field. -/
inductive JVal
  | jstr (s : String)
  | jint (n : ℤ)
deriving DecidableEq

/-- Python `int(v)` on a JSON scalar. -/
def JVal.toIntOpt : JVal → Option ℤ
  | JVal.jint n => some n
  | JVal.jstr s => strToIntOpt s

/-- Python `str(v)` on a JSON scalar (`Nat.toDigits` renders the integer). -/
def JVal.asString : JVal → String
  | JVal.jstr s => s
  | JVal.jint n =>
    if n < 0 then "-" ++ (Nat.toDigits 10 n.natAbs).asString
    else (Nat.toDigits 10 n.natAbs).asString

/-- One entry of `payload["events"]` in the flat ("simple") payload shape;
each field is absent or a JSON scalar. -/
structure RawBurnEvent where
  typ : Option JVal
  txid : Option JVal
  event_index : Option JVal
  user_address : Option JVal
  amount_units : Option JVal
  asset : Option JVal
deriving DecidableEq

/-- A normalized burn tuple produced by `_parse_chainhook_burns`. -/
structure BurnTuple where
  txid : String
  event_index : ℤ
  user_address : String
  amount_units : ℤ
  asset_identifier : String
deriving DecidableEq

/-- `api.views_ops._parse_chainhook_burns`, flat shape (lines 155-165): an
event qualifies when `type == "burn"` and `amount_units` is present; a
qualifying event with a missing `txid`/`event_index`/`user_address` or a
non-integer `event_index`/`amount_units` raises (`KeyError`/`ValueError`)
out of the parser, aborting the whole request. -/
def parse_chainhook_burns_simple : List RawBurnEvent → Except Unit (List BurnTuple)
  | [] => Except.ok []
  | e :: rest =>
    if e.typ = some (JVal.jstr "burn") ∧ e.amount_units.isSome then
      match e.txid, e.event_index.bind JVal.toIntOpt, e.user_address,
          e.amount_units.bind JVal.toIntOpt with
      | some t, some idx, some ua, some amt =>
        (parse_chainhook_burns_simple rest).map
          (fun l => ⟨t.asString, idx, ua.asString, amt,
            ((e.asset.map JVal.asString).getD "")⟩ :: l)
      | _, _, _, _ => Except.error ()
    else
      parse_chainhook_burns_simple rest

/-- `api.views_ops._resolve_user_from_stacks_address`. -/
def resolve_user_from_stacks_address (s : St) (addr : String) : Option ℕ :=
  if strHasAt addr then lookupUserByEmail s (strLower (strStrip addr))
  else lookupUserByEmail s DEMO_USER_EMAIL

/-- The per-tuple body of the webhook loop (lines 330-359): resolve the user
(`User.DoesNotExist` → skip), deduplicate on `(txid, event_index)` (existing
row → skip), otherwise record the event and run the payout orchestrator; any
exception rolls the item's atomic block back and the loop continues.  Returns
the new state and this item's contribution to `processed`. -/
def process_one_burn (s : St) (b : BurnTuple) : St × ℕ :=
  match resolve_user_from_stacks_address s b.user_address with
  | none => (s, 0)
  | some user =>
    match findOnchainEvent s b.txid b.event_index with
    | some _ => (s, 0)
    | none =>
      let ev : OnchainEvent :=
        ⟨b.txid, b.event_index, "burn", user, b.amount_units, b.asset_identifier, false⟩
      let s1 := { s with onchainEvents := s.onchainEvents ++ [ev] }
      match process_payout_for_onchain_event s1 b.txid b.event_index with
      | Except.ok (_, s2) => (s2, 1)
      | Except.error _ => (s, 0)

/-- Responses of the chainhook webhook. -/
inductive HookResp
  | ok (events : ℕ)
  | serverError
deriving DecidableEq

/-- `api.views_ops.stacks_chainhook_webhook` (lines 312-361) on a decoded
flat-shape payload: parse (outside any try/except — a parse exception is an
unhandled server error), then process each burn tuple, counting successes. -/
def stacks_chainhook_webhook (s : St) (events : List RawBurnEvent) : HookResp × St :=
  match parse_chainhook_burns_simple events with
  | Except.error _ => (HookResp.serverError, s)
  | Except.ok burns =>
    if burns.isEmpty then (HookResp.ok 0, s)
    else
      let r := burns.foldl
        (fun (acc : St × ℕ) b =>
          let one := process_one_burn acc.1 b
          (one.1, acc.2 + one.2))
        (s, 0)
      (HookResp.ok r.2, r.1)

/-! ## Generic lemmas about the table helpers -/

theorem exceptOk_of_isOk {ε α : Type} (r : Except ε α) (h : r.isOk = true) :
    ∃ p, r = Except.ok p := by
  cases r with
  | ok p => exact ⟨p, rfl⟩
  | error e => simp [Except.isOk, Except.toBool] at h

theorem find?_key_filter {κ β : Type} [DecidableEq κ]
    (l : List (κ × β)) (k k' : κ) (h : k' ≠ k) :
    (l.filter (fun p => p.1 ≠ k)).find? (fun p => p.1 = k')
      = l.find? (fun p => p.1 = k') := by
  rw [List.find?_filter]
  congr 1
  funext a
  by_cases ha : a.1 = k'
  · have hk : ¬(a.1 = k) := by rw [ha]; exact fun hh => h hh
    simp [ha, hk]
    exact h
  · simp [ha]

theorem lookupA_upsert {β : Type} (l : List (ℕ × β)) (k : ℕ) (v : β) (k' : ℕ) :
    lookupA (upsertA l k v) k' = if k' = k then some v else lookupA l k' := by
  unfold lookupA upsertA
  by_cases h : k' = k
  · subst h
    simp [List.find?_cons]
  · have hne : ¬((k, v).1 = k') := fun hh => h hh.symm
    rw [List.find?_cons_of_neg _ (by simpa using hne), find?_key_filter l k k' h]
    simp [h]

/-! ## C5: unit conversion -/

theorem units_to_pkr_round_trip (a : Dec) (ha : 0 ≤ a.toRat) :
    (units_to_pkr (pkr_to_units a)).toRat ≤ a.toRat := by
  have hT : (0 : ℚ) < ((TEN_POW : ℕ) : ℚ) := by norm_num [TEN_POW, TOKEN_DECIMALS]
  have hfloor := pkr_to_units_nonneg_eq_floor a ha
  have hu0 : 0 ≤ pkr_to_units a := by
    rw [hfloor]
    exact Int.le_floor.mpr (by push_cast; exact mul_nonneg ha hT.le)
  have h1 := units_to_pkr_le (pkr_to_units a) hu0
  have h2 : ((pkr_to_units a : ℤ) : ℚ) ≤ a.toRat * ((TEN_POW : ℕ) : ℚ) := by
    rw [hfloor]
    exact Int.floor_le _
  calc (units_to_pkr (pkr_to_units a)).toRat
      ≤ ((pkr_to_units a : ℤ) : ℚ) / ((TEN_POW : ℕ) : ℚ) := h1
    _ ≤ a.toRat := by
        rw [div_le_iff hT]
        linarith

/-- C5: `pkr_to_units` and `units_to_pkr` are pure exact-decimal conversions
at scale `10 ^ TOKEN_DECIMALS` (default 6): `pkr_to_units` truncates toward
zero after scaling (floor on non-negative amounts, ceiling on non-positive
ones), `units_to_pkr` produces a 2-decimal amount truncated toward zero, the
round trip `units_to_pkr (pkr_to_units A)` never exceeds A for any valid
(non-negative decimal) fiat amount, 12345 units convert to 0.01, and
"1000.00" converts to 1000000000 units. -/
theorem C5_unit_conversions_truncate_and_round_trip :
    (∀ a : Dec, 0 ≤ a.toRat → pkr_to_units a = ⌊a.toRat * ((TEN_POW : ℕ) : ℚ)⌋) ∧
    (∀ a : Dec, a.toRat ≤ 0 → pkr_to_units a = ⌈a.toRat * ((TEN_POW : ℕ) : ℚ)⌉) ∧
    (∀ a : Dec, 0 ≤ a.toRat → (units_to_pkr (pkr_to_units a)).toRat ≤ a.toRat) ∧
    (units_to_pkr 12345 = ⟨1, 2⟩ ∧ (⟨1, 2⟩ : Dec).toRat = 1 / 100) ∧
    pkr_to_units ⟨100000, 2⟩ = 1000000000 := by
  refine ⟨pkr_to_units_nonneg_eq_floor, pkr_to_units_nonpos_eq_ceil,
    units_to_pkr_round_trip, ⟨by decide, ?_⟩, by decide⟩
  rw [Dec.toRat_def]
  norm_num

/-- Witness for C5 at the concrete fiat amount 1.50. -/
theorem C5_unit_conversions_witness :
    (units_to_pkr (pkr_to_units ⟨150, 2⟩)).toRat ≤ (⟨150, 2⟩ : Dec).toRat :=
  C5_unit_conversions_truncate_and_round_trip.2.2.1 ⟨150, 2⟩
    (by rw [Dec.toRat_def]; norm_num)

/-! ## Concrete demo fixture used by witnesses and counterexamples -/

/-- A small populated database: demo user 0 with wallet account and zero
token balance, plus two RECEIVED bank credits of PKR 1000.00 each. -/
def demoSt : St :=
  { St.empty with
    users := [(0, DEMO_USER_EMAIL)],
    walletAccounts := [(0, "WALLET-001")],
    tokenBalances := [(0, 0)],
    extTxs := [⟨1, "p1", "credit", ⟨100000, 2⟩, ETStatus.RECEIVED⟩,
               ⟨2, "p2", "credit", ⟨100000, 2⟩, ETStatus.RECEIVED⟩],
    nextEtId := 3 }

/-! ## C1: idempotency of mint and redeem under a shared key -/

theorem find?_map_update_et (l : List ExternalTransaction) (etId : ℕ) (st : ETStatus) :
    (l.map (fun e => if e.id = etId then { e with status := st } else e)).find?
        (fun e => e.id = etId)
      = (l.find? (fun e => e.id = etId)).map (fun e => { e with status := st }) := by
  induction l with
  | nil => rfl
  | cons a t ih =>
    by_cases ha : a.id = etId
    · simp [List.find?_cons, ha]
    · simp [List.find?_cons, ha, ih]

theorem findEt_setEtStatus_self (s : St) (etId : ℕ) (st : ETStatus)
    (et : ExternalTransaction) (h : findEt s etId = some et) :
    findEt (setEtStatus s etId st) etId = some { et with status := st } := by
  unfold findEt setEtStatus
  simp only [find?_map_update_et]
  unfold findEt at h
  rw [h]
  rfl

/-- C1 counterexample: `perform_mint_for_external_tx` has no key-based
short-circuit.  Invoking it twice with the same idempotency key "k", first
for external transaction 1 and then for external transaction 2 (both
RECEIVED), performs the external chain mint call twice, writes two ledger
pairs (four rows) and credits the cached balance twice; and invoking it
twice on the same external transaction makes the second call return the
plain string "already-minted" rather than the ChainJob record created by
the first call. -/
theorem C1_idempotency_counterexample :
    (((perform_mint_for_external_tx demoSt 1 0 "k").bind
      (fun r => perform_mint_for_external_tx r.2 2 0 "k")).toOption.map
      (fun r => (r.2.chainCalls.length, r.2.ledger.length, lookupA r.2.tokenBalances 0))
      = some (2, 4, some 2000000000)) ∧
    (((perform_mint_for_external_tx demoSt 1 0 "k").bind
      (fun r => perform_mint_for_external_tx r.2 1 0 "k")).toOption.map
      (fun r => r.1) = some "already-minted") :=
  ⟨by decide, by decide⟩

theorem mint_from_provider_tx_key_bound (s : St) (user etId : ℕ) (k : String) (j : ChainJob)
    (hk : ¬k = "") (hj : findJobByKey s k = some j) :
    DemoServices.mint_from_provider_tx s user etId (some k) = Except.ok (j, s) := by
  unfold DemoServices.mint_from_provider_tx
  simp [keyTruthy, hk, hj]

theorem redeem_key_bound (s : St) (user : ℕ) (amt : ℤ) (memo : String) (k : String)
    (j : ChainJob) (hk : ¬k = "") (hj : findJobByKey s k = some j) :
    DemoServices.redeem s user amt memo (some k) = Except.ok (j, s) := by
  unfold DemoServices.redeem
  simp [keyTruthy, hk, hj]

theorem mint_from_provider_tx_binds_key (s : St) (user etId : ℕ) (k : String)
    (j1 : ChainJob) (s1 : St) (hk : ¬k = "") (hfree : findJobByKey s k = none)
    (h : DemoServices.mint_from_provider_tx s user etId (some k) = Except.ok (j1, s1)) :
    findJobByKey s1 k = some j1 := by
  unfold DemoServices.mint_from_provider_tx at h
  simp only [keyTruthy, hk, ite_false, if_neg, Option.some_bind, hfree,
    ChainAdapter.mint] at h
  cases hEt : findEt s etId with
  | none =>
    rw [hEt] at h
    exact absurd h (by simp)
  | some et =>
    rw [hEt] at h
    simp only [] at h
    have hfree1 : findJobByKey
        { s with
          chainStubBalances := upsertA s.chainStubBalances user
            ((lookupA s.chainStubBalances user).getD 0 + pkr_to_units et.amount_pkr),
          chainCalls := s.chainCalls ++ [⟨RefType.mint, user, pkr_to_units et.amount_pkr⟩] } k
        = none := hfree
    rw [hfree1] at h
    simp only [Option.some_bind] at h
    cases hTb : lookupA s.tokenBalances user with
    | none =>
      rw [hTb] at h
      exact absurd h (by simp)
    | some tb =>
      rw [hTb] at h
      simp only [Except.ok.injEq, Prod.mk.injEq] at h
      obtain ⟨hj, hs⟩ := h
      subst hs
      subst hj
      unfold findJobByKey
      simp only [List.find?_append]
      unfold findJobByKey at hfree
      rw [hfree]
      simp

theorem WalletAdapter.debit_frame (s : St) (acct : String) (amt : Dec) (memo : String) :
    ∃ wb wt, (WalletAdapter.debit s acct amt memo).2
      = { s with walletStubBalances := wb, walletStubTxs := wt } := by
  unfold WalletAdapter.debit WalletAdapter.ensure_account
  cases lookupS s.walletStubBalances acct <;> exact ⟨_, _, rfl⟩

theorem WalletAdapter.debit_jobs (s : St) (acct : String) (amt : Dec) (memo : String) :
    ((WalletAdapter.debit s acct amt memo).2).jobs = s.jobs := by
  unfold WalletAdapter.debit WalletAdapter.ensure_account
  cases lookupS s.walletStubBalances acct <;> rfl

theorem redeem_binds_key (s : St) (user : ℕ) (amt : ℤ) (memo : String) (k : String)
    (j1 : ChainJob) (s1 : St) (hk : ¬k = "") (hfree : findJobByKey s k = none)
    (h : DemoServices.redeem s user amt memo (some k) = Except.ok (j1, s1)) :
    findJobByKey s1 k = some j1 := by
  unfold DemoServices.redeem at h
  simp only [keyTruthy, hk, ite_false, if_neg, Option.some_bind, hfree,
    ChainAdapter.burn] at h
  split at h
  · exact absurd h (by simp)
  · split at h
    · exact absurd h (by simp)
    · split at h
      · next winner heq =>
        have hfree1 : findJobByKey
            { s with
              chainStubBalances := upsertA s.chainStubBalances user
                ((lookupA s.chainStubBalances user).getD 0 - amt),
              chainCalls := s.chainCalls ++ [⟨RefType.burn, user, amt⟩] } k
            = none := hfree
        rw [hfree1] at heq
        exact absurd heq (by simp)
      · split at h
        · exact absurd h (by simp)
        · simp only [Except.ok.injEq, Prod.mk.injEq] at h
          obtain ⟨hj, hs⟩ := h
          rw [← hs]
          unfold findJobByKey
          rw [WalletAdapter.debit_jobs]
          simp only [List.find?_append]
          unfold findJobByKey at hfree
          rw [hfree]
          simp [← hj]

theorem perform_mint_on_minted (s : St) (etId user : ℕ) (k : String)
    (et : ExternalTransaction) (hEt : findEt s etId = some et)
    (hst : et.status = ETStatus.MINTED) :
    perform_mint_for_external_tx s etId user k = Except.ok ("already-minted", s) := by
  unfold perform_mint_for_external_tx
  rw [hEt]
  simp [hst]

theorem perform_mint_second_call (s : St) (etId user : ℕ) (k : String) (tx : String)
    (s1 : St) (h : perform_mint_for_external_tx s etId user k = Except.ok (tx, s1))
    (htx : ¬tx = "already-minted") :
    perform_mint_for_external_tx s1 etId user k = Except.ok ("already-minted", s1) := by
  unfold perform_mint_for_external_tx at h
  simp only [ChainAdapter.mint] at h
  split at h
  · exact absurd h (by simp)
  · next et hEt =>
    split at h
    · simp only [Except.ok.injEq, Prod.mk.injEq] at h
      exact absurd h.1.symm htx
    · next hst =>
      split at h
      · exact absurd h (by simp)
      · split at h
        · next j hj =>
          simp only [Except.ok.injEq, Prod.mk.injEq] at h
          obtain ⟨htx', hs⟩ := h
          have hE1 : findEt s1 etId = some { et with status := ETStatus.MINTED } := by
            rw [← hs]
            exact findEt_setEtStatus_self _ etId _ et hEt
          exact perform_mint_on_minted s1 etId user k _ hE1 rfl
        · simp only [Except.ok.injEq, Prod.mk.injEq] at h
          obtain ⟨htx', hs⟩ := h
          have hE1 : findEt s1 etId = some { et with status := ETStatus.MINTED } := by
            rw [← hs]
            exact findEt_setEtStatus_self _ etId _ et hEt
          exact perform_mint_on_minted s1 etId user k _ hE1 rfl

/-- C1 (amended): for every non-empty idempotency key k not yet bound,
`DemoServices.mint_from_provider_tx` and `DemoServices.redeem` are idempotent
in k — a second invocation returns the identical ChainJob record of the first
and leaves the state exactly as the first left it (no chain call, no balance
update, no ledger write); `perform_mint_for_external_tx`, which has no
key-based short-circuit, deduplicates only on the transaction's MINTED
status: after a completed first call on the same transaction, a second call
leaves the state unchanged but returns the string "already-minted" rather
than the job record (and, per the counterexample, a second call with the
same key on a different non-MINTED transaction repeats all side effects). -/
theorem C1_amended_idempotency (s : St) (user etId : ℕ) (k : String) (hk : ¬k = "")
    (hfree : findJobByKey s k = none) :
    (∀ j1 s1, DemoServices.mint_from_provider_tx s user etId (some k) = Except.ok (j1, s1) →
      DemoServices.mint_from_provider_tx s1 user etId (some k) = Except.ok (j1, s1)) ∧
    (∀ amt memo j1 s1, DemoServices.redeem s user amt memo (some k) = Except.ok (j1, s1) →
      DemoServices.redeem s1 user amt memo (some k) = Except.ok (j1, s1)) ∧
    (∀ tx s1, perform_mint_for_external_tx s etId user k = Except.ok (tx, s1) →
      ¬tx = "already-minted" →
      perform_mint_for_external_tx s1 etId user k = Except.ok ("already-minted", s1)) := by
  refine ⟨?_, ?_, ?_⟩
  · intro j1 s1 h
    exact mint_from_provider_tx_key_bound s1 user etId k j1 hk
      (mint_from_provider_tx_binds_key s user etId k j1 s1 hk hfree h)
  · intro amt memo j1 s1 h
    exact redeem_key_bound s1 user amt memo k j1 hk
      (redeem_binds_key s user amt memo k j1 s1 hk hfree h)
  · intro tx s1 h htx
    exact perform_mint_second_call s etId user k tx s1 h htx

/-- Witness for C1 (amended): a concrete double invocation at the demo
fixture returns the same job and state twice. -/
theorem C1_amended_idempotency_witness :
    ∃ j1 s1, DemoServices.mint_from_provider_tx demoSt 0 1 (some "k") = Except.ok (j1, s1) ∧
      DemoServices.mint_from_provider_tx s1 0 1 (some "k") = Except.ok (j1, s1) := by
  obtain ⟨p, hp⟩ := exceptOk_of_isOk
    (DemoServices.mint_from_provider_tx demoSt 0 1 (some "k")) (by decide)
  exact ⟨p.1, p.2, hp,
    (C1_amended_idempotency demoSt 0 1 "k" (by decide) (by decide)).1 p.1 p.2 hp⟩

/-! ## C2: the cached balance always equals the user's ledger net -/

/-- Net of a ledger segment for one user: sum of that user's debit rows on
the `user_token` account minus the sum of their credit rows there. -/
def ledgerNetList (L : List LedgerEntry) (u : ℕ) : ℤ :=
  ((L.filter (fun e => e.account = Account.user_token ∧ e.user = some u ∧
      e.side = Side.debit)).map (fun e => e.amount_units)).sum -
  ((L.filter (fun e => e.account = Account.user_token ∧ e.user = some u ∧
      e.side = Side.credit)).map (fun e => e.amount_units)).sum

/-- The cached `TokenBalance.balance_units` of a user (0 when no row). -/
def cachedBal (s : St) (u : ℕ) : ℤ := (lookupA s.tokenBalances u).getD 0

/-- Ledger net of the whole database for one user. -/
def userLedgerNet (s : St) (u : ℕ) : ℤ := ledgerNetList s.ledger u

/-- The C2 invariant: every user's cached balance equals their ledger net. -/
def balanceLedgerInv (s : St) : Prop := ∀ u, cachedBal s u = userLedgerNet s u

theorem ledgerNetList_append (L1 L2 : List LedgerEntry) (u : ℕ) :
    ledgerNetList (L1 ++ L2) u = ledgerNetList L1 u + ledgerNetList L2 u := by
  unfold ledgerNetList
  rw [List.filter_append, List.filter_append, List.map_append, List.map_append,
    List.sum_append, List.sum_append]
  ring

theorem ledgerNetList_mint_pair (uid : ℕ) (a : ℤ) (jid : ℕ) (u : ℕ) :
    ledgerNetList [⟨none, Side.credit, Account.issuer_token, a, RefType.mint, jid⟩,
      ⟨some uid, Side.debit, Account.user_token, a, RefType.mint, jid⟩] u
      = if u = uid then a else 0 := by
  by_cases h : u = uid
  · subst h
    simp [ledgerNetList, List.filter_cons]
  · have h' : ¬(uid = u) := fun hh => h hh.symm
    simp [ledgerNetList, List.filter_cons, h, h']

theorem ledgerNetList_burn_pair (uid : ℕ) (a : ℤ) (jid : ℕ) (u : ℕ) :
    ledgerNetList [⟨some uid, Side.credit, Account.user_token, a, RefType.burn, jid⟩,
      ⟨none, Side.debit, Account.issuer_token, a, RefType.burn, jid⟩] u
      = if u = uid then -a else 0 := by
  by_cases h : u = uid
  · subst h
    simp [ledgerNetList, List.filter_cons]
  · have h' : ¬(uid = u) := fun hh => h hh.symm
    simp [ledgerNetList, List.filter_cons, h, h']

theorem balanceLedgerInv_same (s s' : St) (hbal : s'.tokenBalances = s.tokenBalances)
    (hled : s'.ledger = s.ledger) (hinv : balanceLedgerInv s) : balanceLedgerInv s' := by
  intro u
  unfold cachedBal userLedgerNet
  rw [hbal, hled]
  exact hinv u

theorem balanceLedgerInv_mint_step (s s' : St) (uid : ℕ) (a old : ℤ) (jid : ℕ)
    (hold : (lookupA s.tokenBalances uid).getD 0 = old)
    (hbal : s'.tokenBalances = upsertA s.tokenBalances uid (old + a))
    (hled : s'.ledger = s.ledger ++
      [⟨none, Side.credit, Account.issuer_token, a, RefType.mint, jid⟩,
       ⟨some uid, Side.debit, Account.user_token, a, RefType.mint, jid⟩])
    (hinv : balanceLedgerInv s) : balanceLedgerInv s' := by
  intro u
  have hu := hinv u
  unfold cachedBal userLedgerNet at hu ⊢
  rw [hbal, hled, lookupA_upsert, ledgerNetList_append, ledgerNetList_mint_pair]
  by_cases h : u = uid
  · subst h
    have huid := hinv u
    unfold cachedBal userLedgerNet at huid
    rw [hold] at huid
    simp [← huid]
  · simp [h, hu]

theorem balanceLedgerInv_burn_step (s s' : St) (uid : ℕ) (a tb : ℤ) (jid : ℕ)
    (hlook : lookupA s.tokenBalances uid = some tb)
    (hbal : s'.tokenBalances = upsertA s.tokenBalances uid (tb - a))
    (hled : s'.ledger = s.ledger ++
      [⟨some uid, Side.credit, Account.user_token, a, RefType.burn, jid⟩,
       ⟨none, Side.debit, Account.issuer_token, a, RefType.burn, jid⟩])
    (hinv : balanceLedgerInv s) : balanceLedgerInv s' := by
  intro u
  have hu := hinv u
  unfold cachedBal userLedgerNet at hu ⊢
  rw [hbal, hled, lookupA_upsert, ledgerNetList_append, ledgerNetList_burn_pair]
  by_cases h : u = uid
  · subst h
    have huid := hinv u
    unfold cachedBal userLedgerNet at huid
    rw [hlook] at huid
    simp at huid
    simp [← huid]
    ring
  · simp [h, hu]

theorem WalletAdapter.debit_tokenBalances (s : St) (acct : String) (amt : Dec)
    (memo : String) :
    ((WalletAdapter.debit s acct amt memo).2).tokenBalances = s.tokenBalances := by
  unfold WalletAdapter.debit WalletAdapter.ensure_account
  cases lookupS s.walletStubBalances acct <;> rfl

theorem WalletAdapter.debit_ledger (s : St) (acct : String) (amt : Dec) (memo : String) :
    ((WalletAdapter.debit s acct amt memo).2).ledger = s.ledger := by
  unfold WalletAdapter.debit WalletAdapter.ensure_account
  cases lookupS s.walletStubBalances acct <;> rfl

theorem perform_mint_preserves_inv (s : St) (hinv : balanceLedgerInv s)
    (etId user : ℕ) (k : String) (tx : String) (s1 : St)
    (h : perform_mint_for_external_tx s etId user k = Except.ok (tx, s1)) :
    balanceLedgerInv s1 := by
  unfold perform_mint_for_external_tx at h
  simp only [ChainAdapter.mint] at h
  split at h
  · exact absurd h (by simp)
  · next et hEt =>
    split at h
    · simp only [Except.ok.injEq, Prod.mk.injEq] at h
      rw [← h.2]
      exact hinv
    · split at h
      · exact absurd h (by simp)
      · split at h
        · next j hj =>
          simp only [Except.ok.injEq, Prod.mk.injEq] at h
          obtain ⟨-, hs⟩ := h
          refine balanceLedgerInv_mint_step s s1 user (pkr_to_units et.amount_pkr)
            ((lookupA s.tokenBalances user).getD 0) j.id rfl ?_ ?_ hinv
          · subst hs
            rfl
          · subst hs
            rfl
        · simp only [Except.ok.injEq, Prod.mk.injEq] at h
          obtain ⟨-, hs⟩ := h
          refine balanceLedgerInv_mint_step s s1 user (pkr_to_units et.amount_pkr)
            ((lookupA s.tokenBalances user).getD 0) s.nextJobId rfl ?_ ?_ hinv
          · subst hs
            rfl
          · subst hs
            rfl

theorem mint_from_provider_tx_preserves_inv (s : St) (hinv : balanceLedgerInv s)
    (user etId : ℕ) (key : Option String) (j : ChainJob) (s1 : St)
    (h : DemoServices.mint_from_provider_tx s user etId key = Except.ok (j, s1)) :
    balanceLedgerInv s1 := by
  unfold DemoServices.mint_from_provider_tx at h
  simp only [ChainAdapter.mint] at h
  split at h
  · simp only [Except.ok.injEq, Prod.mk.injEq] at h
    rw [← h.2]
    exact hinv
  · split at h
    · exact absurd h (by simp)
    · next et hEt =>
      split at h
      · split at h
        · simp only [Except.ok.injEq, Prod.mk.injEq] at h
          obtain ⟨-, hs⟩ := h
          refine balanceLedgerInv_same _ s1 ?_ ?_ hinv
          · subst hs
            rfl
          · subst hs
            rfl
        · exact absurd h (by simp)
      · split at h
        · exact absurd h (by simp)
        · next tb hTb =>
          simp only [Except.ok.injEq, Prod.mk.injEq] at h
          obtain ⟨-, hs⟩ := h
          refine balanceLedgerInv_mint_step s s1 user (pkr_to_units et.amount_pkr)
            tb s.nextJobId (by rw [hTb]; rfl) ?_ ?_ hinv
          · subst hs
            rfl
          · subst hs
            rfl

theorem redeem_preserves_inv (s : St) (hinv : balanceLedgerInv s)
    (user : ℕ) (amt : ℤ) (memo : String) (key : Option String) (j : ChainJob) (s1 : St)
    (h : DemoServices.redeem s user amt memo key = Except.ok (j, s1)) :
    balanceLedgerInv s1 := by
  unfold DemoServices.redeem at h
  simp only [ChainAdapter.burn] at h
  split at h
  · simp only [Except.ok.injEq, Prod.mk.injEq] at h
    rw [← h.2]
    exact hinv
  · split at h
    · exact absurd h (by simp)
    · next tb hTb =>
      split at h
      · exact absurd h (by simp)
      · split at h
        · split at h
          · simp only [Except.ok.injEq, Prod.mk.injEq] at h
            obtain ⟨-, hs⟩ := h
            refine balanceLedgerInv_same _ s1 ?_ ?_ hinv
            · subst hs
              rfl
            · subst hs
              rfl
          · exact absurd h (by simp)
        · split at h
          · exact absurd h (by simp)
          · next acct hWa =>
            simp only [Except.ok.injEq, Prod.mk.injEq] at h
            obtain ⟨-, hs⟩ := h
            refine balanceLedgerInv_burn_step s s1 user amt tb s.nextJobId hTb ?_ ?_ hinv
            · subst hs
              rw [WalletAdapter.debit_tokenBalances]
            · subst hs
              rw [WalletAdapter.debit_ledger]

/-- C2: for every user the cached `TokenBalance.balance_units` equals the sum
of that user's debit LedgerEntry rows on the `user_token` account minus the
sum of their credit rows there, and every completed mint
(`perform_mint_for_external_tx` or `DemoServices.mint_from_provider_tx`) and
every completed redeem changes both in the same atomic unit: whenever the
invariant holds before the call it holds after it (failed calls roll the whole
atomic unit back, so they preserve it trivially). -/
theorem C2_balance_equals_ledger_net (s : St) (hinv : balanceLedgerInv s) :
    (∀ etId user k tx s1,
      perform_mint_for_external_tx s etId user k = Except.ok (tx, s1) →
      balanceLedgerInv s1) ∧
    (∀ user etId key j s1,
      DemoServices.mint_from_provider_tx s user etId key = Except.ok (j, s1) →
      balanceLedgerInv s1) ∧
    (∀ user amt memo key j s1,
      DemoServices.redeem s user amt memo key = Except.ok (j, s1) →
      balanceLedgerInv s1) :=
  ⟨fun etId user k tx s1 h => perform_mint_preserves_inv s hinv etId user k tx s1 h,
   fun user etId key j s1 h => mint_from_provider_tx_preserves_inv s hinv user etId key j s1 h,
   fun user amt memo key j s1 h => redeem_preserves_inv s hinv user amt memo key j s1 h⟩

/-- Witness for C2: the demo fixture satisfies the invariant and a concrete
completed mint preserves it. -/
theorem C2_balance_equals_ledger_net_witness :
    ∃ tx s1, perform_mint_for_external_tx demoSt 1 0 "k" = Except.ok (tx, s1) ∧
      balanceLedgerInv s1 := by
  have hinv : balanceLedgerInv demoSt := by
    intro u
    by_cases h : u = 0
    · subst h
      decide
    · have h' : ¬((0 : ℕ) = u) := fun hh => h hh.symm
      unfold cachedBal userLedgerNet ledgerNetList demoSt St.empty lookupA
      simp [List.find?_cons, h']
  obtain ⟨p, hp⟩ := exceptOk_of_isOk (perform_mint_for_external_tx demoSt 1 0 "k") (by decide)
  exact ⟨p.1, p.2, hp,
    (C2_balance_equals_ledger_net demoSt hinv).1 1 0 "k" p.1 p.2 hp⟩

/-! ## C3: insufficient balance rejects the redeem with no side effects -/

/-- C3: a redeem request whose amount exceeds the user's locked balance fails
with the `insufficient_balance` validation error — surfaced by the HTTP view
as the 400 body `{error: "insufficient_balance"}` — and performs no further
action: the returned state is exactly the pre-call state (no chain burn call,
no ChainJob row, no TokenBalance change, no LedgerEntry rows, no wallet
debit).  The hypotheses mirror the path to the guard: the idempotency key (if
any) is not yet bound, the demo user resolves, a TokenBalance row exists, and
the posted amount is a non-zero integer (the view rejects the falsy 0 with
"amount_units required" before reaching the service). -/
theorem C3_insufficient_balance_rejected (s : St) (uid : ℕ) (amt : ℤ) (memo : String)
    (key : Option String)
    (huser : lookupUserByEmail s DEMO_USER_EMAIL = some uid)
    (hkey : ∀ k, key = some k → findJobByKey s k = none)
    (b : ℤ) (hb : lookupA s.tokenBalances uid = some b) (hlt : b < amt) (hamt : ¬amt = 0) :
    DemoServices.redeem s uid amt memo key
      = Except.error (Err.validationError "insufficient_balance") ∧
    views_redeem s amt memo key = (RedeemResp.errorJson "insufficient_balance", s) := by
  have hpre : (keyTruthy key).bind (fun k => findJobByKey s k) = none := by
    cases key with
    | none => rfl
    | some k =>
      unfold keyTruthy
      by_cases hk : k = ""
      · simp [hk]
      · simp [hk, hkey k rfl]
  have hsvc : DemoServices.redeem s uid amt memo key
      = Except.error (Err.validationError "insufficient_balance") := by
    unfold DemoServices.redeem
    rw [hpre, hb]
    simp [hlt]
  refine ⟨hsvc, ?_⟩
  unfold views_redeem
  rw [if_neg hamt]
  simp only [huser, hsvc]

/-- Witness for C3: redeeming 5 units against the zero balance of the demo
fixture fails with `insufficient_balance` and leaves the state untouched. -/
theorem C3_insufficient_balance_witness :
    DemoServices.redeem demoSt 0 5 "m" none
      = Except.error (Err.validationError "insufficient_balance") ∧
    views_redeem demoSt 5 "m" none = (RedeemResp.errorJson "insufficient_balance", demoSt) :=
  C3_insufficient_balance_rejected demoSt 0 5 "m" none (by decide)
    (fun _ hk => Option.noConfusion hk) 0 (by decide) (by decide) (by decide)

/-! ## C4: every completed mint/burn writes exactly one balanced ledger pair -/

/-- The two rows a mint writes: issuer credit and user debit. -/
def mintPair (user : ℕ) (a : ℤ) (jid : ℕ) : List LedgerEntry :=
  [⟨none, Side.credit, Account.issuer_token, a, RefType.mint, jid⟩,
   ⟨some user, Side.debit, Account.user_token, a, RefType.mint, jid⟩]

/-- The two rows a burn writes: user credit and issuer debit. -/
def burnPair (user : ℕ) (a : ℤ) (jid : ℕ) : List LedgerEntry :=
  [⟨some user, Side.credit, Account.user_token, a, RefType.burn, jid⟩,
   ⟨none, Side.debit, Account.issuer_token, a, RefType.burn, jid⟩]

/-- Signed contribution of one ledger row (credit positive, debit negative),
used to state that a pair sums to zero across the two accounts. -/
def pairSigned (e : LedgerEntry) : ℤ :=
  match e.side with
  | Side.credit => e.amount_units
  | Side.debit => -e.amount_units

/-- C4: every completed mint appends to the ledger exactly the two rows
`{credit, issuer_token, no user}` and `{debit, user_token, the user}`, both
carrying the minted amount and both referencing the id of a ChainJob present
in the database; every completed redeem appends the mirrored burn pair; and
in each pair the two rows have opposite sides and equal magnitude, so the
pair sums to zero. -/
theorem C4_ledger_pairs (s : St) :
    (∀ etId user k tx s1,
      perform_mint_for_external_tx s etId user k = Except.ok (tx, s1) →
      ¬tx = "already-minted" →
      ∃ a jid, (∃ j, j ∈ s1.jobs ∧ j.id = jid) ∧
        s1.ledger = s.ledger ++ mintPair user a jid ∧
        ((mintPair user a jid).map pairSigned).sum = 0) ∧
    (∀ user etId key j s1,
      DemoServices.mint_from_provider_tx s user etId key = Except.ok (j, s1) →
      (∀ k, key = some k → findJobByKey s k = none) →
      ∃ a, j ∈ s1.jobs ∧ s1.ledger = s.ledger ++ mintPair user a j.id ∧
        ((mintPair user a j.id).map pairSigned).sum = 0) ∧
    (∀ user amt memo key j s1,
      DemoServices.redeem s user amt memo key = Except.ok (j, s1) →
      (∀ k, key = some k → findJobByKey s k = none) →
      j ∈ s1.jobs ∧ s1.ledger = s.ledger ++ burnPair user amt j.id ∧
        ((burnPair user amt j.id).map pairSigned).sum = 0) := by
  refine ⟨?_, ?_, ?_⟩
  · intro etId user k tx s1 h htx
    unfold perform_mint_for_external_tx at h
    simp only [ChainAdapter.mint] at h
    split at h
    · exact absurd h (by simp)
    · next et hEt =>
      split at h
      · simp only [Except.ok.injEq, Prod.mk.injEq] at h
        exact absurd h.1.symm htx
      · split at h
        · exact absurd h (by simp)
        · split at h
          · next j hj =>
            simp only [Except.ok.injEq, Prod.mk.injEq] at h
            obtain ⟨-, hs⟩ := h
            subst hs
            refine ⟨pkr_to_units et.amount_pkr, j.id,
              ⟨j, List.mem_of_find?_eq_some hj, rfl⟩, rfl, by simp [mintPair, pairSigned]⟩
          · simp only [Except.ok.injEq, Prod.mk.injEq] at h
            obtain ⟨-, hs⟩ := h
            subst hs
            refine ⟨pkr_to_units et.amount_pkr, s.nextJobId,
              ⟨_, List.mem_append_right _ (List.mem_singleton.mpr rfl), rfl⟩, rfl,
              by simp [mintPair, pairSigned]⟩
  · intro user etId key j s1 h hkey
    have hpre : (keyTruthy key).bind (fun k => findJobByKey s k) = none := by
      cases key with
      | none => rfl
      | some k =>
        unfold keyTruthy
        by_cases hk : k = ""
        · simp [hk]
        · simp [hk, hkey k rfl]
    unfold DemoServices.mint_from_provider_tx at h
    rw [hpre] at h
    simp only [ChainAdapter.mint] at h
    split at h
    · exact absurd h (by simp)
    · next et hEt =>
      split at h
      · next winner hwin =>
        cases key with
        | none => exact absurd h (by simp [keyTruthy])
        | some k =>
          have hwin2 : findJobByKey s k = some winner := hwin
          rw [hkey k rfl] at hwin2
          exact absurd hwin2 (by simp)
      · split at h
        · exact absurd h (by simp)
        · next tb hTb =>
          simp only [Except.ok.injEq, Prod.mk.injEq] at h
          obtain ⟨hj, hs⟩ := h
          subst hs
          subst hj
          exact ⟨pkr_to_units et.amount_pkr,
            List.mem_append_right _ (List.mem_singleton.mpr rfl), rfl,
            by simp [mintPair, pairSigned]⟩
  · intro user amt memo key j s1 h hkey
    have hpre : (keyTruthy key).bind (fun k => findJobByKey s k) = none := by
      cases key with
      | none => rfl
      | some k =>
        unfold keyTruthy
        by_cases hk : k = ""
        · simp [hk]
        · simp [hk, hkey k rfl]
    unfold DemoServices.redeem at h
    rw [hpre] at h
    simp only [ChainAdapter.burn] at h
    split at h
    · exact absurd h (by simp)
    · next tb hTb =>
      split at h
      · exact absurd h (by simp)
      · split at h
        · next winner hwin =>
          cases key with
          | none => exact absurd h (by simp [keyTruthy])
          | some k =>
            have hwin2 : findJobByKey s k = some winner := hwin
            rw [hkey k rfl] at hwin2
            exact absurd hwin2 (by simp)
        · split at h
          · exact absurd h (by simp)
          · next acct hWa =>
            simp only [Except.ok.injEq, Prod.mk.injEq] at h
            obtain ⟨hj, hs⟩ := h
            subst hs
            subst hj
            refine ⟨?_, ?_, by simp [burnPair, pairSigned]⟩
            · rw [WalletAdapter.debit_jobs]
              exact List.mem_append_right _ (List.mem_singleton.mpr rfl)
            · rw [WalletAdapter.debit_ledger]
              rfl

/-- Witness for C4: the concrete mint at the demo fixture writes exactly the
balanced issuer-credit / user-debit pair. -/
theorem C4_ledger_pairs_witness :
    ∃ tx s1, perform_mint_for_external_tx demoSt 1 0 "k" = Except.ok (tx, s1) ∧
      ∃ a jid, (∃ j, j ∈ s1.jobs ∧ j.id = jid) ∧
        s1.ledger = demoSt.ledger ++ mintPair 0 a jid ∧
        ((mintPair 0 a jid).map pairSigned).sum = 0 := by
  obtain ⟨p, hp⟩ := exceptOk_of_isOk (perform_mint_for_external_tx demoSt 1 0 "k") (by decide)
  have hfst : (perform_mint_for_external_tx demoSt 1 0 "k").toOption.map (fun r => r.1)
      = some "0xMINT" := by decide
  rw [hp] at hfst
  simp only [Except.toOption, Option.map_some', Option.some.injEq] at hfst
  exact ⟨p.1, p.2, hp, (C4_ledger_pairs demoSt).1 1 0 "k" p.1 p.2 hp
    (by rw [hfst]; decide)⟩

/-! ## C6: the zero/negative-amount guard exists only in one mint path -/

/-- Fixture with a RECEIVED bank credit of PKR 0.00. -/
def demoStZero : St :=
  { St.empty with
    users := [(0, DEMO_USER_EMAIL)],
    walletAccounts := [(0, "WALLET-001")],
    tokenBalances := [(0, 0)],
    extTxs := [⟨1, "pz", "credit", ⟨0, 2⟩, ETStatus.RECEIVED⟩],
    nextEtId := 2 }

/-- C6 counterexample: `DemoServices.mint_from_provider_tx` performs no
amount check — on an external transaction of PKR 0.00 it succeeds, makes the
chain mint call with 0 units, creates a ChainJob over 0 units and writes two
ledger rows, instead of rejecting before the chain call. -/
theorem C6_amount_check_counterexample :
    ((DemoServices.mint_from_provider_tx demoStZero 0 1 (some "kz")).toOption.map
      (fun r => (r.2.chainCalls, r.1.amount_units, r.2.ledger.length)))
      = some ([⟨RefType.mint, 0, 0⟩], 0, 2) := by decide

/-- C6 (amended): `perform_mint_for_external_tx` rejects a fiat amount
converting to zero or negative units with `ValueError("Amount must be > 0")`
before the chain call, and the atomic rollback leaves no side effect;
`DemoServices.mint_from_provider_tx` has no such check: under the same
conditions it completes the whole mint, invoking the chain with the
non-positive unit amount. -/
theorem C6_amended_amount_check (s : St) (etId user : ℕ) (k : String)
    (et : ExternalTransaction) (hEt : findEt s etId = some et)
    (hst : ¬et.status = ETStatus.MINTED) (hz : pkr_to_units et.amount_pkr ≤ 0) :
    perform_mint_for_external_tx s etId user k
      = Except.error (Err.valueError "Amount must be > 0") ∧
    (∀ key, (∀ k', key = some k' → findJobByKey s k' = none) →
      ∀ tb, lookupA s.tokenBalances user = some tb →
      ((DemoServices.mint_from_provider_tx s user etId key).toOption.map
        (fun r => (r.2.chainCalls, r.1.amount_units)))
        = some (s.chainCalls ++ [⟨RefType.mint, user, pkr_to_units et.amount_pkr⟩],
            pkr_to_units et.amount_pkr)) := by
  constructor
  · unfold perform_mint_for_external_tx
    rw [hEt]
    simp [hst, hz]
  · intro key hkey tb hTb
    have hpre : (keyTruthy key).bind (fun k => findJobByKey s k) = none := by
      cases key with
      | none => rfl
      | some k' =>
        unfold keyTruthy
        by_cases hk : k' = ""
        · simp [hk]
        · simp [hk, hkey k' rfl]
    have hcon : (key.bind fun a => findJobByKey
        { s with
          chainStubBalances := upsertA s.chainStubBalances user
            ((lookupA s.chainStubBalances user).getD 0 + pkr_to_units et.amount_pkr),
          chainCalls := s.chainCalls ++ [⟨RefType.mint, user, pkr_to_units et.amount_pkr⟩] }
        a) = none := by
      cases key with
      | none => rfl
      | some k' => exact hkey k' rfl
    unfold DemoServices.mint_from_provider_tx
    simp only [hpre, hEt, ChainAdapter.mint, hcon, hTb]
    rfl

/-- Witness for C6 (amended): at the zero-amount fixture the strict path
refuses and the demo-services path mints 0 units through the chain. -/
theorem C6_amended_amount_check_witness :
    perform_mint_for_external_tx demoStZero 1 0 "kz"
      = Except.error (Err.valueError "Amount must be > 0") ∧
    ((DemoServices.mint_from_provider_tx demoStZero 0 1 none).toOption.map
      (fun r => (r.2.chainCalls, r.1.amount_units)))
      = some ([⟨RefType.mint, 0, 0⟩], 0) := by
  have h := C6_amended_amount_check demoStZero 1 0 "kz"
    ⟨1, "pz", "credit", ⟨0, 2⟩, ETStatus.RECEIVED⟩ (by decide) (by decide) (by decide)
  refine ⟨h.1, ?_⟩
  have h2 := h.2 none (fun _ hk' => Option.noConfusion hk') 0 (by decide)
  simpa using h2

/-! ## C7: negative redeem amounts pass the balance guard -/

theorem WalletAdapter.debit_chainCalls (s : St) (acct : String) (amt : Dec)
    (memo : String) :
    ((WalletAdapter.debit s acct amt memo).2).chainCalls = s.chainCalls := by
  unfold WalletAdapter.debit WalletAdapter.ensure_account
  cases lookupS s.walletStubBalances acct <;> rfl

/-- C7: `DemoServices.redeem` has no positivity check.  For every strictly
negative requested amount n (with the key, if any, unbound) the guard
`balance < n` fails for any non-negative balance b, so the redeem completes:
the chain burn is invoked with the negative amount, the cached balance rises
to b - n (an increase by |n|), the two ledger rows carry the negative
magnitude n, and the HTTP redeem view forwards the non-zero amount and
answers 201 with the job. -/
theorem C7_negative_redeem_goes_through (s : St) (uid : ℕ) (n : ℤ) (hn : n < 0)
    (memo : String) (key : Option String)
    (hkey : ∀ k, key = some k → findJobByKey s k = none)
    (b : ℤ) (hb : lookupA s.tokenBalances uid = some b) (hb0 : 0 ≤ b)
    (acct : String) (hacct : lookupA s.walletAccounts uid = some acct)
    (huser : lookupUserByEmail s DEMO_USER_EMAIL = some uid) :
    ∃ j s1, DemoServices.redeem s uid n memo key = Except.ok (j, s1) ∧
      j.amount_units = n ∧
      s1.chainCalls = s.chainCalls ++ [⟨RefType.burn, uid, n⟩] ∧
      lookupA s1.tokenBalances uid = some (b - n) ∧
      s1.ledger = s.ledger ++ burnPair uid n j.id ∧
      views_redeem s n memo key = (RedeemResp.created j.id j.tx_hash j.amount_units, s1) := by
  have hpre : (keyTruthy key).bind (fun k => findJobByKey s k) = none := by
    cases key with
    | none => rfl
    | some k' =>
      unfold keyTruthy
      by_cases hk : k' = ""
      · simp [hk]
      · simp [hk, hkey k' rfl]
  have hcon : (key.bind fun a => findJobByKey
      { s with
        chainStubBalances := upsertA s.chainStubBalances uid
          ((lookupA s.chainStubBalances uid).getD 0 - n),
        chainCalls := s.chainCalls ++ [⟨RefType.burn, uid, n⟩] }
      a) = none := by
    cases key with
    | none => rfl
    | some k' => exact hkey k' rfl
  have hrun : DemoServices.redeem s uid n memo key = Except.ok
      (⟨s.nextJobId, uid, RefType.burn, n, none, "0xBURN", "confirmed", key⟩,
        (WalletAdapter.debit
          { s with
            chainStubBalances := upsertA s.chainStubBalances uid
              ((lookupA s.chainStubBalances uid).getD 0 - n),
            chainCalls := s.chainCalls ++ [⟨RefType.burn, uid, n⟩],
            jobs := s.jobs ++
              [⟨s.nextJobId, uid, RefType.burn, n, none, "0xBURN", "confirmed", key⟩],
            nextJobId := s.nextJobId + 1,
            tokenBalances := upsertA s.tokenBalances uid (b - n),
            ledger := s.ledger ++
              [⟨some uid, Side.credit, Account.user_token, n, RefType.burn, s.nextJobId⟩,
               ⟨none, Side.debit, Account.issuer_token, n, RefType.burn, s.nextJobId⟩] }
          acct (units_to_pkr n) (if memo = "" then "redeem" else memo)).2) := by
    unfold DemoServices.redeem
    simp only [hpre, hb, ChainAdapter.burn]
    rw [if_neg (by omega : ¬b < n)]
    simp only [hcon, hacct]
  refine ⟨_, _, hrun, rfl, ?_, ?_, ?_, ?_⟩
  · rw [WalletAdapter.debit_chainCalls]
  · rw [WalletAdapter.debit_tokenBalances]
    show lookupA (upsertA s.tokenBalances uid (b - n)) uid = some (b - n)
    rw [lookupA_upsert]
    simp
  · rw [WalletAdapter.debit_ledger]
    rfl
  · unfold views_redeem
    rw [if_neg (by omega : ¬n = 0)]
    simp only [huser, hrun]

/-- Witness for C7: redeeming -5 units at the demo fixture succeeds, burns
-5 on the chain and raises the cached balance from 0 to 5. -/
theorem C7_negative_redeem_witness :
    ∃ j s1, DemoServices.redeem demoSt 0 (-5) "m" none = Except.ok (j, s1) ∧
      j.amount_units = -5 ∧
      s1.chainCalls = demoSt.chainCalls ++ [⟨RefType.burn, 0, -5⟩] ∧
      lookupA s1.tokenBalances 0 = some (0 - -5) ∧
      s1.ledger = demoSt.ledger ++ burnPair 0 (-5) j.id ∧
      views_redeem demoSt (-5) "m" none
        = (RedeemResp.created j.id j.tx_hash j.amount_units, s1) :=
  C7_negative_redeem_goes_through demoSt 0 (-5) (by decide) "m" none
    (fun _ hk => Option.noConfusion hk) 0 (by decide) (by decide) "WALLET-001"
    (by decide) (by decide)

/-! ## C8: replaying a verified bank delivery for a MINTED transaction -/

/-- C8: a verified bank webhook delivery whose `provider_tx_id` refers to an
ExternalTransaction already in status MINTED (a replay of a credit/settled
positive-amount delivery) answers the 200 body `{ok, idempotent:true,
status}` and leaves the database — TokenBalance, ChainJob table, ledger and
everything else — exactly unchanged: no re-mint happens. -/
theorem C8_bank_replay_idempotent (s : St) (p : BankPayload) (uid : ℕ)
    (hres : resolve_user_from_bank_payload s p = some uid)
    (acct : String) (hwa : lookupA s.walletAccounts uid = some acct)
    (hdir : strLower p.direction = "credit") (hst : strLower p.status = "settled")
    (hamt : 0 < p.amount_pkr.m)
    (et : ExternalTransaction) (het : findEtByProviderTx s p.provider_tx_id = some et)
    (hminted : et.status = ETStatus.MINTED) :
    bank_webhook_verified s p = (BankResp.idempotent ETStatus.MINTED, s) := by
  unfold bank_webhook_verified
  simp only [hres, hwa, hdir, hst]
  rw [if_neg (by push_neg; exact ⟨rfl, rfl, by omega⟩)]
  simp only [het]
  rw [if_pos hminted, hminted]

/-- Fixture for the replay: the bank credit "bank1" is already MINTED and the
balance reflects it. -/
def demoStMinted : St :=
  { St.empty with
    users := [(0, DEMO_USER_EMAIL)],
    walletAccounts := [(0, "WALLET-001")],
    tokenBalances := [(0, 1000000000)],
    extTxs := [⟨1, "bank1", "credit", ⟨100000, 2⟩, ETStatus.MINTED⟩],
    nextEtId := 2 }

/-- The replayed delivery: same provider tx id, credit, settled, 1000.00. -/
def replayPayload : BankPayload :=
  ⟨"bank1", "credit", "settled", ⟨100000, 2⟩, "", none, some DEMO_USER_EMAIL⟩

/-- Witness for C8 at the concrete replay. -/
theorem C8_bank_replay_idempotent_witness :
    bank_webhook_verified demoStMinted replayPayload
      = (BankResp.idempotent ETStatus.MINTED, demoStMinted) :=
  C8_bank_replay_idempotent demoStMinted replayPayload 0 (by decide) "WALLET-001"
    (by decide) (by decide) (by decide) (by decide)
    ⟨1, "bank1", "credit", ⟨100000, 2⟩, ETStatus.MINTED⟩ (by decide) (by decide)

/-! ## C9: burn-notification dedup and the parse hole -/

/-- A flat-shape event with `type="burn"` and `amount_units` present but no
`txid`: the parser raises `KeyError` on it, outside any try/except. -/
def malformedBurnEvent : RawBurnEvent :=
  ⟨some (JVal.jstr "burn"), none, some (JVal.jint 0), some (JVal.jstr "x"),
    some (JVal.jint 5), none⟩

/-- A well-formed flat-shape burn event. -/
def goodBurnEvent : RawBurnEvent :=
  ⟨some (JVal.jstr "burn"), some (JVal.jstr "t9"), some (JVal.jint 0),
    some (JVal.jstr "x"), some (JVal.jint 12345), none⟩

/-- C9 counterexample: a batch holding one well-formed and one structurally
malformed burn tuple (missing txid) aborts whole — the parse exception
escapes, nothing at all is processed (the well-formed event included) and
the response is a server error, not 200. -/
theorem C9_chainhook_counterexample :
    stacks_chainhook_webhook demoSt [goodBurnEvent, malformedBurnEvent]
      = (HookResp.serverError, demoSt) := by decide

/-- C9 (amended): a burn tuple whose `(txid, event_index)` already has an
OnchainEvent row is skipped as a strict no-op — the payout orchestrator is
not invoked, no table (PayoutJob included) changes and the tuple contributes
0 to the processed count; a tuple whose user cannot be resolved is likewise
skipped without aborting the rest of the batch; and the endpoint answers 200
`{ok, events:n}` for every payload whose flat-shape events parse — but a
structurally malformed tuple (type "burn" with amount present yet missing or
non-integer txid/event_index/user_address) raises during parsing and fails
the entire request before any event is processed. -/
theorem C9_amended_chainhook_dedup :
    (∀ s b ev, findOnchainEvent s b.txid b.event_index = some ev →
      process_one_burn s b = (s, 0)) ∧
    (∀ s b, resolve_user_from_stacks_address s b.user_address = none →
      process_one_burn s b = (s, 0)) ∧
    (∀ s events burns, parse_chainhook_burns_simple events = Except.ok burns →
      ∃ n s1, stacks_chainhook_webhook s events = (HookResp.ok n, s1)) := by
  refine ⟨?_, ?_, ?_⟩
  · intro s b ev hev
    unfold process_one_burn
    cases hres : resolve_user_from_stacks_address s b.user_address with
    | none => rfl
    | some u => simp only [hev]
  · intro s b hres
    unfold process_one_burn
    simp only [hres]
  · intro s events burns hp
    unfold stacks_chainhook_webhook
    simp only [hp]
    by_cases hb : burns.isEmpty
    · rw [if_pos hb]
      exact ⟨0, s, rfl⟩
    · rw [if_neg hb]
      exact ⟨_, _, rfl⟩

/-- Fixture holding an already-seen burn event and its successful payout. -/
def demoStEvent : St :=
  { demoSt with
    onchainEvents := [⟨"t1", 0, "burn", 0, 12345, "", true⟩],
    payoutJobs := [⟨"t1", 0, 0, ⟨1, 2⟩, "TX-0", PayoutJobStatus.SUCCESS, 1, ""⟩] }

/-- Witness for C9 (amended): the duplicate tuple is a no-op and an empty
parsed batch answers 200. -/
theorem C9_amended_chainhook_dedup_witness :
    process_one_burn demoStEvent ⟨"t1", 0, "x", 12345, ""⟩ = (demoStEvent, 0) ∧
    (∃ n s1, stacks_chainhook_webhook demoStEvent [] = (HookResp.ok n, s1)) :=
  ⟨C9_amended_chainhook_dedup.1 demoStEvent ⟨"t1", 0, "x", 12345, ""⟩
      ⟨"t1", 0, "burn", 0, 12345, "", true⟩ (by decide),
    C9_amended_chainhook_dedup.2.2 demoStEvent [] [] rfl⟩

/-! ## C10: SUCCESS is terminal for payout jobs -/

theorem setPayoutJob_mem (s : St) (j q : PayoutJob)
    (hq : q ∈ (setPayoutJob s j).payoutJobs) : q ∈ s.payoutJobs ∨ q = j := by
  unfold setPayoutJob at hq
  simp only [List.mem_map] at hq
  obtain ⟨x, hx, hfx⟩ := hq
  by_cases hc : x.event_txid = j.event_txid ∧ x.event_index = j.event_index
  · right
    rw [← hfx]
    simp [hc]
  · left
    rw [← hfx]
    simp only [if_neg hc]
    exact hx

theorem WalletAdapter.debit_payoutJobs (s : St) (acct : String) (amt : Dec)
    (memo : String) :
    ((WalletAdapter.debit s acct amt memo).2).payoutJobs = s.payoutJobs := by
  unfold WalletAdapter.debit WalletAdapter.ensure_account
  cases lookupS s.walletStubBalances acct <;> rfl

theorem markEventConsumed_payoutJobs (s : St) (txid : String) (idx : ℤ) :
    (markEventConsumed s txid idx).payoutJobs = s.payoutJobs := rfl

/-- The job update written by the orchestrator when the debit attempt fails
(the wallet account is missing — the only failure the stub can raise). -/
def payoutFailUpdate (j : PayoutJob) : PayoutJob :=
  { j with
    status := PayoutJobStatus.FAILED_RETRYABLE,
    last_error := "WalletAccount matching query does not exist.",
    attempts := j.attempts + 1 }

/-- The job update written on a successful debit. -/
def payoutSuccessUpdate (j : PayoutJob) (ref : String) : PayoutJob :=
  { j with
    payout_ref := ref,
    status := PayoutJobStatus.SUCCESS,
    last_error := "",
    attempts := j.attempts + 1 }

/-- The PENDING job `get_or_create` makes for a fresh event. -/
def freshPayoutJob (txid : String) (idx : ℤ) (ev : OnchainEvent) : PayoutJob :=
  ⟨txid, idx, ev.user, units_to_pkr ev.amount_units, "", PayoutJobStatus.PENDING, 0, ""⟩

/-- C10: with the on-chain event present, (1) invoking the payout
orchestrator on a PayoutJob whose status is already SUCCESS returns that job
with the state exactly unchanged — no wallet debit, no attempt increment, no
field change; (2) when the debit attempt fails the job moves to
FAILED_RETRYABLE with the error text recorded and the attempt counter
incremented, while the event stays unconsumed and no wallet transaction is
written; (3) no invocation ever produces a FAILED_FINAL job — the returned
job is never FAILED_FINAL and every job row after the call either existed
before or carries PENDING, SUCCESS or FAILED_RETRYABLE — so in every
reachable state a job enters SUCCESS only from PENDING or FAILED_RETRYABLE. -/
theorem C10_payout_success_terminal (s : St) (txid : String) (idx : ℤ)
    (ev : OnchainEvent) (hev : findOnchainEvent s txid idx = some ev) :
    (∀ j, findPayoutJob s txid idx = some j → j.status = PayoutJobStatus.SUCCESS →
      process_payout_for_onchain_event s txid idx = Except.ok (j, s)) ∧
    (∀ j, findPayoutJob s txid idx = some j → ¬j.status = PayoutJobStatus.SUCCESS →
      lookupA s.walletAccounts ev.user = none →
      process_payout_for_onchain_event s txid idx
        = Except.ok (payoutFailUpdate j, setPayoutJob s (payoutFailUpdate j)) ∧
      (setPayoutJob s (payoutFailUpdate j)).onchainEvents = s.onchainEvents ∧
      (setPayoutJob s (payoutFailUpdate j)).walletStubTxs = s.walletStubTxs) ∧
    (∀ j' s1, process_payout_for_onchain_event s txid idx = Except.ok (j', s1) →
      ¬j'.status = PayoutJobStatus.FAILED_FINAL ∧
      ∀ q, q ∈ s1.payoutJobs → q ∈ s.payoutJobs ∨
        q.status = PayoutJobStatus.PENDING ∨ q.status = PayoutJobStatus.SUCCESS ∨
        q.status = PayoutJobStatus.FAILED_RETRYABLE) := by
  refine ⟨?_, ?_, ?_⟩
  · intro j hj hsucc
    unfold process_payout_for_onchain_event
    simp only [hev, hj]
    simp [hsucc]
  · intro j hj hns hwal
    unfold process_payout_for_onchain_event
    simp only [hev, hj]
    rw [if_neg hns]
    simp only [hwal]
    exact ⟨rfl, rfl, rfl⟩
  · intro j' s1 h
    unfold process_payout_for_onchain_event at h
    simp only [hev] at h
    cases hjp : findPayoutJob s txid idx with
    | some j =>
      simp only [hjp] at h
      split at h
      · next hsucc =>
        simp only [Except.ok.injEq, Prod.mk.injEq] at h
        obtain ⟨hj', hs⟩ := h
        subst hs
        constructor
        · rw [← hj', hsucc]
          decide
        · intro q hq
          exact Or.inl hq
      · next hns =>
        split at h
        · simp only [Except.ok.injEq, Prod.mk.injEq] at h
          obtain ⟨hj', hs⟩ := h
          subst hs
          constructor
          · rw [← hj']
            simp
          · intro q hq
            rcases setPayoutJob_mem _ _ _ hq with hmem | hiseq
            · exact Or.inl hmem
            · subst hiseq
              exact Or.inr (Or.inr (Or.inr rfl))
        · next acct hacct =>
          simp only [Except.ok.injEq, Prod.mk.injEq] at h
          obtain ⟨hj', hs⟩ := h
          constructor
          · rw [← hj']
            simp
          · intro q hq
            have hq2 : q ∈ (setPayoutJob
                ((WalletAdapter.debit s acct (units_to_pkr ev.amount_units)
                  ("payout for " ++ txid)).2)
                (payoutSuccessUpdate j
                  (WalletAdapter.debit s acct (units_to_pkr ev.amount_units)
                    ("payout for " ++ txid)).1)).payoutJobs := by
              rw [← hs] at hq
              cases hc : ev.consumed with
              | true =>
                rw [hc] at hq
                exact hq
              | false =>
                rw [hc] at hq
                exact hq
            rcases setPayoutJob_mem _ _ _ hq2 with hmem | hiseq
            · rw [WalletAdapter.debit_payoutJobs] at hmem
              exact Or.inl hmem
            · subst hiseq
              exact Or.inr (Or.inr (Or.inl rfl))
    | none =>
      simp only [hjp] at h
      split at h
      · next hTrue =>
        exact absurd hTrue (by simp [freshPayoutJob])
      · next hns =>
        split at h
        · simp only [Except.ok.injEq, Prod.mk.injEq] at h
          obtain ⟨hj', hs⟩ := h
          subst hs
          constructor
          · rw [← hj']
            simp
          · intro q hq
            rcases setPayoutJob_mem _ _ _ hq with hmem | hiseq
            · rcases List.mem_append.mp hmem with hmem2 | hmem2
              · exact Or.inl hmem2
              · exact Or.inr (Or.inl (by rw [List.mem_singleton.mp hmem2]))
            · subst hiseq
              exact Or.inr (Or.inr (Or.inr rfl))
        · next acct hacct =>
          simp only [Except.ok.injEq, Prod.mk.injEq] at h
          obtain ⟨hj', hs⟩ := h
          constructor
          · rw [← hj']
            simp
          · intro q hq
            have hq2 : q ∈ (setPayoutJob
                ((WalletAdapter.debit
                  { s with payoutJobs := s.payoutJobs ++ [freshPayoutJob txid idx ev] }
                  acct (units_to_pkr ev.amount_units) ("payout for " ++ txid)).2)
                (payoutSuccessUpdate (freshPayoutJob txid idx ev)
                  (WalletAdapter.debit
                    { s with payoutJobs := s.payoutJobs ++ [freshPayoutJob txid idx ev] }
                    acct (units_to_pkr ev.amount_units)
                    ("payout for " ++ txid)).1)).payoutJobs := by
              rw [← hs] at hq
              cases hc : ev.consumed with
              | true =>
                rw [hc] at hq
                exact hq
              | false =>
                rw [hc] at hq
                exact hq
            rcases setPayoutJob_mem _ _ _ hq2 with hmem | hiseq
            · rw [WalletAdapter.debit_payoutJobs] at hmem
              rcases List.mem_append.mp hmem with hmem2 | hmem2
              · exact Or.inl hmem2
              · exact Or.inr (Or.inl (by rw [List.mem_singleton.mp hmem2]; rfl))
            · subst hiseq
              exact Or.inr (Or.inr (Or.inl rfl))

/-- Witness for C10: the already-SUCCESS payout job of the fixture is
returned with the state untouched. -/
theorem C10_payout_success_terminal_witness :
    process_payout_for_onchain_event demoStEvent "t1" 0
      = Except.ok (⟨"t1", 0, 0, ⟨1, 2⟩, "TX-0", PayoutJobStatus.SUCCESS, 1, ""⟩,
          demoStEvent) :=
  (C10_payout_success_terminal demoStEvent "t1" 0 ⟨"t1", 0, "burn", 0, 12345, "", true⟩
    (by decide)).1 ⟨"t1", 0, 0, ⟨1, 2⟩, "TX-0", PayoutJobStatus.SUCCESS, 1, ""⟩
    (by decide) rfl
